import Mathlib

/-!
Verification of the `local-llm-chatbot` repository.

The frontend streaming client (`frontend/src/app/page.tsx`, function
`sendMessage`) is embedded as a pure state machine: the per-chunk
processing loop, the turn-level outcome handling (completion, abort,
transport failure), and the request construction. JavaScript strings are
modelled through their character sequences, so `startsWith` and `trim`
are embedded as list operations on `String.data`. The backend dialogue
controller (its Python source is not part of the repository snapshot) is
modelled from the specification where a claim needs it; those definitions
carry a `Modelled from the spec:` doc comment.
-/

/-! ## String primitives used by page.tsx -/

/-- JavaScript `s.startsWith(p)`: `p` is a prefix of the character sequence of `s`. -/
def strStartsWith (s p : String) : Bool :=
  p.data.isPrefixOf s.data

/-- Whitespace characters removed by JavaScript `trim()` (the ones that can
occur in this code path). -/
def isWhitespaceChar (c : Char) : Bool :=
  c = ' ' || c = '\t' || c = '\n' || c = '\r'

/-- JavaScript `s.trim()`: strip leading and trailing whitespace. -/
def strTrim (s : String) : String :=
  ⟨((s.data.dropWhile isWhitespaceChar).reverse.dropWhile isWhitespaceChar).reverse⟩

/-! ## Streaming response pipeline (page.tsx, sendMessage read loop) -/

/-- Chunk classification from page.tsx line 214:
`chunk.startsWith('[Fetching') || chunk.startsWith('[Looking up') || chunk.startsWith('[Checking')`. -/
def isStatusChunk (chunk : String) : Bool :=
  strStartsWith chunk "[Fetching" || strStartsWith chunk "[Looking up" ||
    strStartsWith chunk "[Checking"

/-- The mutable locals of the read loop in `sendMessage`: the accumulated
`botText` and the `statusMessageActive` flag. -/
structure StreamState where
  botText : String
  statusMessageActive : Bool
deriving Repr, DecidableEq

/-- Loop state at entry: `let botText = ""` and `let statusMessageActive = false`. -/
def initStreamState : StreamState := ⟨"", false⟩

/-- One iteration of the read loop body (page.tsx lines 212-238): a status
chunk overwrites `botText` with the trimmed chunk and raises the flag; a
content chunk first resets `botText` when a status was active, then appends. -/
def processChunk (s : StreamState) (chunk : String) : StreamState :=
  if isStatusChunk chunk then
    { botText := strTrim chunk, statusMessageActive := true }
  else
    { botText := (if s.statusMessageActive then "" else s.botText) ++ chunk,
      statusMessageActive := false }

/-- Run the read loop over a whole fragment sequence. -/
def processChunks (s : StreamState) (chunks : List String) : StreamState :=
  chunks.foldl processChunk s

/-- Boolean prefix test on the underlying character lists, used to state the
append-only property of the displayed text. -/
def textExtends (old new : String) : Bool :=
  old.data.isPrefixOf new.data

theorem processChunks_append (s : StreamState) (xs ys : List String) :
    processChunks s (xs ++ ys) = processChunks (processChunks s xs) ys := by
  simp [processChunks, List.foldl_append]

theorem processChunk_status (s : StreamState) (c : String) (h : isStatusChunk c = true) :
    processChunk s c = ⟨strTrim c, true⟩ := by
  simp [processChunk, h]

theorem processChunk_content (s : StreamState) (c : String) (h : isStatusChunk c = false) :
    processChunk s c =
      ⟨(if s.statusMessageActive then "" else s.botText) ++ c, false⟩ := by
  simp [processChunk, h]

theorem string_data_append (a b : String) : (a ++ b).data = a.data ++ b.data := by
  cases a; cases b; rfl

theorem textExtends_append (a b : String) : textExtends a (a ++ b) = true := by
  rw [textExtends, string_data_append]
  exact List.isPrefixOf_iff_prefix.mpr (List.prefix_append _ _)

theorem textExtends_refl (a : String) : textExtends a a = true :=
  List.isPrefixOf_iff_prefix.mpr (List.prefix_refl _)

theorem textExtends_trans (a b c : String)
    (h1 : textExtends a b = true) (h2 : textExtends b c = true) :
    textExtends a c = true :=
  List.isPrefixOf_iff_prefix.mpr
    ((List.isPrefixOf_iff_prefix.mp h1).trans (List.isPrefixOf_iff_prefix.mp h2))

/-- Content-only processing from a state with no active status message only
ever appends to the displayed text and keeps the flag low. -/
theorem processChunks_content_extends (chunks : List String) :
    ∀ s : StreamState, s.statusMessageActive = false →
      (∀ c ∈ chunks, isStatusChunk c = false) →
      textExtends s.botText (processChunks s chunks).botText = true ∧
        (processChunks s chunks).statusMessageActive = false := by
  induction chunks with
  | nil =>
    intro s hflag _
    exact ⟨textExtends_refl _, hflag⟩
  | cons c rest ih =>
    intro s hflag hall
    have hc : isStatusChunk c = false := hall c (by simp)
    have hstep : processChunk s c = ⟨s.botText ++ c, false⟩ := by
      rw [processChunk_content s c hc, hflag]
      simp
    have hrest : ∀ x ∈ rest, isStatusChunk x = false := by
      intro x hx; exact hall x (by simp [hx])
    have hchain : processChunks s (c :: rest) = processChunks (processChunk s c) rest := rfl
    obtain ⟨h1, h2⟩ := ih (processChunk s c) (by rw [hstep]) hrest
    rw [hstep] at h1 h2
    rw [hchain, hstep]
    exact ⟨textExtends_trans _ _ _ (textExtends_append s.botText c) h1, h2⟩

/-- C3: a [status, status, content, content] fragment sequence displays
exactly the two content fragments concatenated; in general a status fragment
replaces the display, the first content fragment after a status replaces it,
and a content fragment with no active status appends. -/
theorem status_fragment_replacement
    (s1 s2 c1 c2 : String)
    (hs1 : isStatusChunk s1 = true) (hs2 : isStatusChunk s2 = true)
    (hc1 : isStatusChunk c1 = false) (hc2 : isStatusChunk c2 = false) :
    (processChunks initStreamState [s1, s2, c1, c2]).botText = c1 ++ c2 ∧
      (∀ s : StreamState, ∀ c : String, isStatusChunk c = true →
        (processChunk s c).botText = strTrim c) ∧
      (∀ s : StreamState, ∀ c : String, isStatusChunk c = false →
        s.statusMessageActive = true → (processChunk s c).botText = c) ∧
      (∀ s : StreamState, ∀ c : String, isStatusChunk c = false →
        s.statusMessageActive = false → (processChunk s c).botText = s.botText ++ c) := by
  refine ⟨?_, ?_, ?_, ?_⟩
  · show (processChunk (processChunk (processChunk (processChunk
      initStreamState s1) s2) c1) c2).botText = c1 ++ c2
    rw [processChunk_status _ s1 hs1, processChunk_status _ s2 hs2,
      processChunk_content _ c1 hc1]
    simp only
    rw [processChunk_content _ c2 hc2]
    simp
  · intro s c h; rw [processChunk_status s c h]
  · intro s c h hflag; rw [processChunk_content s c h, hflag]; simp
  · intro s c h hflag; rw [processChunk_content s c h, hflag]; simp

/-- Witness for `status_fragment_replacement` at concrete fragments. -/
theorem status_fragment_replacement_witness :
    (processChunks initStreamState
      ["[Fetching menu data...]", "[Checking availability...]", "Margherita ", "is AED 31.0"]).botText
      = "Margherita " ++ "is AED 31.0" :=
  (status_fragment_replacement "[Fetching menu data...]" "[Checking availability...]"
    "Margherita " "is AED 31.0" (by decide) (by decide) (by decide) (by decide)).1

/-- C5 counterexample: after the content fragment "Hello" has been processed,
processing the status fragment "[Fetching menu]" overwrites the display, so
the previously displayed content text "Hello" is not a prefix of the new
displayed text. The pipeline does edit earlier content when a status fragment
arrives after content has begun. -/
theorem pipeline_edits_content_on_late_status :
    isStatusChunk "Hello" = false ∧
      (processChunk initStreamState "Hello").botText = "Hello" ∧
      textExtends (processChunk initStreamState "Hello").botText
        (processChunk (processChunk initStreamState "Hello") "[Fetching menu]").botText
        = false := by
  decide

/-- C5 amended: for fragment sequences in which no status fragment follows a
content fragment (all fragments after the first content fragment are content
fragments), the pipeline is append-only once content begins: after each
subsequent fragment is processed, the previously displayed text is a prefix
of the displayed text. -/
theorem pipeline_append_only_after_content
    (pre : List String) (c : String) (rest : List String) (k : Nat)
    (hc : isStatusChunk c = false)
    (hrest : ∀ x ∈ rest, isStatusChunk x = false) :
    textExtends (processChunks initStreamState (pre ++ c :: rest.take k)).botText
      (processChunks initStreamState (pre ++ c :: rest.take (k + 1))).botText = true := by
  have hsplit : pre ++ c :: rest.take (k + 1)
      = (pre ++ c :: rest.take k) ++ (rest[k]?).toList := by
    rw [List.take_succ]
    simp
  rw [hsplit,
    processChunks_append initStreamState (pre ++ c :: rest.take k) ((rest[k]?).toList)]
  have hflag : (processChunks initStreamState
      (pre ++ c :: rest.take k)).statusMessageActive = false := by
    have hre : pre ++ c :: rest.take k = (pre ++ [c]) ++ rest.take k := by simp
    rw [hre, processChunks_append]
    have h1 : (processChunks initStreamState (pre ++ [c])).statusMessageActive = false := by
      rw [processChunks_append]
      show (processChunk (processChunks initStreamState pre) c).statusMessageActive = false
      rw [processChunk_content _ c hc]
    exact (processChunks_content_extends (rest.take k) _ h1
      (fun x hx => hrest x (List.take_subset k rest hx))).2
  exact (processChunks_content_extends ((rest[k]?).toList) _ hflag
    (fun x hx => hrest x (List.getElem?_mem (Option.mem_toList.mp hx)))).1

/-- Witness for `pipeline_append_only_after_content`: with fragments
[status, "Hi ", "there"], the text displayed after "Hi " is a prefix of the
text displayed after "there". -/
theorem pipeline_append_only_after_content_witness :
    textExtends (processChunks initStreamState
        ("[Checking open restaurants]" :: "Hi " :: List.take 0 ["there"])).botText
      (processChunks initStreamState
        ("[Checking open restaurants]" :: "Hi " :: List.take 1 ["there"])).botText = true :=
  pipeline_append_only_after_content ["[Checking open restaurants]"] "Hi " ["there"] 0
    (by decide) (by decide)

/-- C8: a chunk is classified as a status fragment exactly when its text
begins with "[Fetching", "[Looking up" or "[Checking"; status chunks take the
replace branch of the loop and all other chunks take the content branch. -/
theorem chunk_classification (c : String) (s : StreamState) :
    (isStatusChunk c = true ↔
      (strStartsWith c "[Fetching" = true ∨ strStartsWith c "[Looking up" = true ∨
        strStartsWith c "[Checking" = true)) ∧
      (isStatusChunk c = true → processChunk s c = ⟨strTrim c, true⟩) ∧
      (isStatusChunk c = false →
        processChunk s c = ⟨(if s.statusMessageActive then "" else s.botText) ++ c, false⟩) := by
  refine ⟨?_, processChunk_status s c, processChunk_content s c⟩
  simp [isStatusChunk, Bool.or_eq_true, or_assoc]

/-- Witness for `chunk_classification` at concrete chunks. -/
theorem chunk_classification_witness :
    processChunk initStreamState "[Looking up item]" = ⟨strTrim "[Looking up item]", true⟩ ∧
      processChunk initStreamState "plain text" = ⟨"" ++ "plain text", false⟩ :=
  ⟨(chunk_classification "[Looking up item]" initStreamState).2.1 (by decide),
    (chunk_classification "plain text" initStreamState).2.2 (by decide)⟩

/-! ## Client chat state and turn handling (page.tsx, Home component) -/

/-- Message sender tag from the `Message` interface: `sender: "user" | "bot"`. -/
inductive Sender
  | user
  | bot
deriving Repr, DecidableEq

/-- Chat message type of page.tsx: `{ sender, text }`. -/
structure Message where
  sender : Sender
  text : String
deriving Repr, DecidableEq

/-- Minimal JSON values, to state what `JSON.stringify` puts in the request body. -/
inductive Json
  | str (s : String)
  | arr (xs : List Json)
  | obj (fields : List (String × Json))

/-- Top-level keys of a JSON object, in order. -/
def Json.keys : Json → List String
  | .obj fs => fs.map Prod.fst
  | _ => []

/-- The wire form of a sender tag. -/
def Sender.wire : Sender → String
  | .user => "user"
  | .bot => "bot"

/-- JSON encoding of one history entry. -/
def encodeMessage (m : Message) : Json :=
  .obj [("sender", .str m.sender.wire), ("text", .str m.text)]

/-- The body of a chat request (page.tsx lines 189-193). -/
structure ChatRequest where
  message : String
  history : List Message
  session_id : String
deriving Repr, DecidableEq

/-- JSON body as built by `JSON.stringify({ message, history, session_id })`. -/
def encodeRequest (r : ChatRequest) : Json :=
  .obj [("message", .str r.message),
    ("history", .arr (r.history.map encodeMessage)),
    ("session_id", .str r.session_id)]

/-- The chat endpoint used by `fetch` in `sendMessage`. -/
def chatUrl : String := "http://localhost:5000/chat"

/-- Externally observable actions of one `sendMessage` invocation. -/
inductive Effect
  | abortSignal
  | http (url : String) (method : String) (req : ChatRequest)
deriving Repr, DecidableEq

/-- The React state of the `Home` component that `sendMessage` reads or writes:
`messages`, `input`, `loading`, `centered`, `showTyping`, `stoppedMessages` and
the lazily initialised constant `sessionId`. -/
structure ClientState where
  messages : List Message
  input : String
  loading : Bool
  centered : Bool
  showTyping : Bool
  stoppedMessages : List Nat
  sessionId : String
deriving Repr, DecidableEq

/-- Component state right after initialisation: empty conversation, empty
input, not loading, centered layout, and the session id generated once by the
`useState` lazy initialiser. -/
def initClientState (sessionId : String) : ClientState :=
  ⟨[], "", false, true, false, [], sessionId⟩

/-- How the turn started by one `sendMessage` call ends: the stream completes,
the client aborts it after some chunks were processed, the transport or
generation fails after some chunks were processed, or the fetch itself fails
before any chunk arrives (`!res.ok || !res.body`, network error). -/
inductive TurnOutcome
  | completed (chunks : List String)
  | aborted (chunks : List String)
  | failed (chunks : List String)
  | failedEarly
deriving Repr, DecidableEq

/-- The generic fallback text appended on a non-abort error (page.tsx line 263). -/
def errorText : String := "Sorry, there was an error connecting to the AI."

/-- One `sendMessage` invocation, run to the end of its turn.

The stop path (lines 163-171) runs when `loading` is set: it aborts the
in-flight request and returns without touching the conversation. The empty
guard (line 173) returns when the trimmed message is empty. Otherwise the
user message is appended, the POST is issued with the pre-send `messages` as
history, a bot placeholder is appended and rewritten from the stream state
after every chunk, and the outcome decides the final shape: on completion
the bot entry holds the loop's final `botText`; on abort it is kept as-is
and the pre-send history length (the `messages.length` captured by the
closure) is added to `stoppedMessages`; on a mid-stream error the generic
apology is appended after the partial bot entry; on an early error it is
appended after the user message. -/
def sendMessage (st : ClientState) (overrideInput : Option String)
    (outcome : TurnOutcome) : ClientState × List Effect :=
  if st.loading then
    ({ st with loading := false, showTyping := false }, [Effect.abortSignal])
  else
    let messageToSend := overrideInput.getD st.input
    if strTrim messageToSend = "" then (st, [])
    else
      let userMessage : Message := ⟨Sender.user, messageToSend⟩
      let req : ChatRequest := ⟨messageToSend, st.messages, st.sessionId⟩
      match outcome with
      | .completed chunks =>
          ({ st with
              messages := st.messages ++ [userMessage,
                ⟨Sender.bot, (processChunks initStreamState chunks).botText⟩],
              input := "", loading := false, centered := false, showTyping := false },
            [Effect.http chatUrl "POST" req])
      | .aborted chunks =>
          ({ st with
              messages := st.messages ++ [userMessage,
                ⟨Sender.bot, (processChunks initStreamState chunks).botText⟩],
              input := "", loading := false, centered := false, showTyping := false,
              stoppedMessages := st.stoppedMessages ++ [st.messages.length] },
            [Effect.http chatUrl "POST" req])
      | .failed chunks =>
          ({ st with
              messages := st.messages ++ [userMessage,
                ⟨Sender.bot, (processChunks initStreamState chunks).botText⟩,
                ⟨Sender.bot, errorText⟩],
              input := "", loading := false, centered := false, showTyping := false },
            [Effect.http chatUrl "POST" req])
      | .failedEarly =>
          ({ st with
              messages := st.messages ++ [userMessage, ⟨Sender.bot, errorText⟩],
              input := "", loading := false, centered := false, showTyping := false },
            [Effect.http chatUrl "POST" req])

/-- The rendering condition of the gray "stopped" badge (page.tsx line 417):
it shows at index `idx` when the message there is a bot message and `idx` is
in `stoppedMessages`. -/
def stoppedBadgeShown (msgs : List Message) (stopped : List Nat) (idx : Nat) : Bool :=
  match msgs[idx]? with
  | some m => m.sender == Sender.bot && stopped.contains idx
  | none => false

/-- A sequence of `sendMessage` invocations on one page instance, collecting
all emitted effects. -/
def runTurns (st : ClientState) (turns : List (Option String × TurnOutcome)) :
    ClientState × List Effect :=
  match turns with
  | [] => (st, [])
  | t :: rest =>
      let s1 := sendMessage st t.1 t.2
      let s2 := runTurns s1.1 rest
      (s2.1, s1.2 ++ s2.2)

theorem sendMessage_effects (st : ClientState) (ov : Option String) (o : TurnOutcome) :
    (sendMessage st ov o).2 = [Effect.abortSignal] ∨ (sendMessage st ov o).2 = [] ∨
      (sendMessage st ov o).2
        = [Effect.http chatUrl "POST" ⟨ov.getD st.input, st.messages, st.sessionId⟩] := by
  unfold sendMessage
  by_cases hl : st.loading
  · simp [hl]
  · by_cases ht : strTrim (ov.getD st.input) = ""
    · simp [hl, ht]
    · cases o <;> simp [hl, ht]

theorem sendMessage_sessionId (st : ClientState) (ov : Option String) (o : TurnOutcome) :
    (sendMessage st ov o).1.sessionId = st.sessionId := by
  unfold sendMessage
  by_cases hl : st.loading
  · simp [hl]
  · by_cases ht : strTrim (ov.getD st.input) = ""
    · simp [hl, ht]
    · cases o <;> simp [hl, ht]

/-- C6: every chat request the client issues is a POST to the /chat endpoint
whose JSON body has exactly the keys `message`, `history` and `session_id`,
holding the user's message text, the prior conversation, and the page's
session id. -/
theorem chat_request_shape (st : ClientState) (ov : Option String) (o : TurnOutcome)
    (u m : String) (req : ChatRequest)
    (h : Effect.http u m req ∈ (sendMessage st ov o).2) :
    u = chatUrl ∧ m = "POST" ∧
      req.message = ov.getD st.input ∧ req.history = st.messages ∧
      req.session_id = st.sessionId ∧
      encodeRequest req = Json.obj [("message", Json.str req.message),
        ("history", Json.arr (req.history.map encodeMessage)),
        ("session_id", Json.str req.session_id)] ∧
      (encodeRequest req).keys = ["message", "history", "session_id"] := by
  rcases sendMessage_effects st ov o with he | he | he <;> rw [he] at h
  · simp at h
  · simp at h
  · rw [List.mem_singleton] at h
    cases h
    exact ⟨rfl, rfl, rfl, rfl, rfl, rfl, rfl⟩

/-- Witness for `chat_request_shape` on a concrete send. -/
theorem chat_request_shape_witness :
    (encodeRequest ⟨"Hi", [], "session_w"⟩).keys = ["message", "history", "session_id"] :=
  (chat_request_shape (initClientState "session_w") (some "Hi") (.completed ["ok"])
    chatUrl "POST" ⟨"Hi", [], "session_w"⟩ (by decide)).2.2.2.2.2.2

/-- C7: on a non-abort failure (mid-stream or before the stream opens), the
conversation gains exactly one generic apology entry as a new bot turn, with
the fixed text "Sorry, there was an error connecting to the AI."; no raw
fault text reaches the conversation. -/
theorem transport_failure_apology (st : ClientState) (m : String) (chunks : List String)
    (hl : st.loading = false) (hm : ¬ strTrim m = "") :
    (sendMessage st (some m) (.failed chunks)).1.messages
        = st.messages ++ [⟨Sender.user, m⟩,
            ⟨Sender.bot, (processChunks initStreamState chunks).botText⟩,
            ⟨Sender.bot, errorText⟩] ∧
      (sendMessage st (some m) .failedEarly).1.messages
        = st.messages ++ [⟨Sender.user, m⟩, ⟨Sender.bot, errorText⟩] ∧
      errorText = "Sorry, there was an error connecting to the AI." := by
  unfold sendMessage
  simp [hl, hm]
  rfl

/-- Witness for `transport_failure_apology` on a concrete failing turn. -/
theorem transport_failure_apology_witness :
    (sendMessage (initClientState "session_e") (some "Hi") (.failed ["par"])).1.messages
      = [] ++ [⟨Sender.user, "Hi"⟩,
          ⟨Sender.bot, (processChunks initStreamState ["par"]).botText⟩,
          ⟨Sender.bot, errorText⟩] :=
  (transport_failure_apology (initClientState "session_e") "Hi" ["par"] rfl (by decide)).1

/-- C9: the session id is fixed at page initialisation; every POST /chat
request issued over any sequence of turns carries that same id, and the state
keeps it unchanged. -/
theorem session_id_stable (turns : List (Option String × TurnOutcome)) :
    ∀ st : ClientState,
      (runTurns st turns).1.sessionId = st.sessionId ∧
        ∀ u m req, Effect.http u m req ∈ (runTurns st turns).2 →
          req.session_id = st.sessionId := by
  induction turns with
  | nil =>
    intro st
    refine ⟨rfl, ?_⟩
    intro u m req h
    simp [runTurns] at h
  | cons t rest ih =>
    intro st
    obtain ⟨ihid, iheff⟩ := ih (sendMessage st t.1 t.2).1
    constructor
    · show (runTurns (sendMessage st t.1 t.2).1 rest).1.sessionId = st.sessionId
      rw [ihid, sendMessage_sessionId]
    · intro u m req h
      have hsplit : (runTurns st (t :: rest)).2
          = (sendMessage st t.1 t.2).2 ++ (runTurns (sendMessage st t.1 t.2).1 rest).2 := rfl
      rw [hsplit, List.mem_append] at h
      rcases h with h | h
      · rcases sendMessage_effects st t.1 t.2 with he | he | he <;> rw [he] at h
        · simp at h
        · simp at h
        · rw [List.mem_singleton] at h
          cases h
          rfl
      · have := iheff u m req h
        rw [sendMessage_sessionId] at this
        exact this

/-- Witness for `session_id_stable` on a concrete two-turn run. -/
theorem session_id_stable_witness :
    (runTurns (initClientState "session_w9")
        [(some "Hi", .completed ["a"]), (some "Bye", .completed ["b"])]).1.sessionId
      = "session_w9" :=
  (session_id_stable [(some "Hi", .completed ["a"]), (some "Bye", .completed ["b"])]
    (initClientState "session_w9")).1

/-- C10: invoking send with no response in flight and an all-whitespace input
changes nothing (same state, no effects, in particular no appended message
and no HTTP request); invoking it while a response is in flight emits only
the abort signal and appends no message. -/
theorem send_empty_or_inflight (st : ClientState) (o : TurnOutcome) :
    (st.loading = false → strTrim st.input = "" → sendMessage st none o = (st, [])) ∧
      (st.loading = true →
        (sendMessage st none o).1.messages = st.messages ∧
          (sendMessage st none o).2 = [Effect.abortSignal]) := by
  constructor
  · intro hl ht
    unfold sendMessage
    simp [hl, ht]
  · intro hl
    unfold sendMessage
    simp [hl]

/-- Witness for `send_empty_or_inflight` at concrete states: a whitespace-only
input is a no-op, and a send during loading only aborts. -/
theorem send_empty_or_inflight_witness :
    sendMessage { initClientState "session_w10" with input := "   " } none
        (.completed ["x"]) = ({ initClientState "session_w10" with input := "   " }, []) ∧
      (sendMessage { initClientState "session_w10" with loading := true } none
        (.completed ["x"])).2 = [Effect.abortSignal] :=
  ⟨(send_empty_or_inflight { initClientState "session_w10" with input := "   " }
      (.completed ["x"])).1 rfl (by decide),
    ((send_empty_or_inflight { initClientState "session_w10" with loading := true }
      (.completed ["x"])).2 rfl).2⟩

/-- C4 evidence: aborting after two content fragments preserves the partial
bot text "Hello" as the last history entry, but the index recorded in
`stoppedMessages` is the pre-send history length (0), which is the user
message's index, so the "stopped" badge is shown on no message at all: the
aborted bot message is not distinguishably marked. -/
theorem abort_marks_wrong_index :
    (sendMessage (initClientState "session_demo") (some "Hi")
        (.aborted ["Hel", "lo"])).1.messages
      = [⟨Sender.user, "Hi"⟩, ⟨Sender.bot, "Hello"⟩] ∧
      (sendMessage (initClientState "session_demo") (some "Hi")
        (.aborted ["Hel", "lo"])).1.stoppedMessages = [0] ∧
      stoppedBadgeShown [⟨Sender.user, "Hi"⟩, ⟨Sender.bot, "Hello"⟩] [0] 0 = false ∧
      stoppedBadgeShown [⟨Sender.user, "Hi"⟩, ⟨Sender.bot, "Hello"⟩] [0] 1 = false := by
  decide

/-! ## Backend dialogue controller, modelled from the spec -/

/-- Modelled from the spec: the backend Dialogue Controller source (the
FastAPI `main.py`) is missing from the repository snapshot; this is the order
state machine of spec section 4.2 with the session data of section 3. The
stages are `idle`, `item_inquiry`, `order_pending_confirmation`, one
collecting state per required field, and `order_complete`. -/
inductive Stage
  | idle
  | item_inquiry
  | order_pending_confirmation
  | collecting_rfid
  | collecting_building
  | collecting_phone
  | collecting_special
  | order_complete
deriving Repr, DecidableEq

/-- Modelled from the spec: one required-field slot of the order draft, a
value with its `validated` flag (spec section 3, OrderDraft.fields). -/
structure FieldEntry where
  value : String
  validated : Bool
deriving Repr, DecidableEq

/-- Modelled from the spec: the pending order of a session, with its item
names and the four required fields (RFID identifier, building code, phone
number, special request). -/
structure OrderDraft where
  items : List String
  rfid : FieldEntry
  building : FieldEntry
  phone : FieldEntry
  special : FieldEntry
deriving Repr, DecidableEq

/-- A draft with nothing collected; the special request defaults to "None". -/
def emptyDraft : OrderDraft :=
  ⟨[], ⟨"", false⟩, ⟨"", false⟩, ⟨"", false⟩, ⟨"None", false⟩⟩

/-- Every required field of the draft carries `validated = true`. -/
def allValidated (d : OrderDraft) : Bool :=
  d.rfid.validated && d.building.validated && d.phone.validated && d.special.validated

/-- The identifier digit length configured in `system_prompt.txt` ("RFID
Number (6 digits)"); `ORDERING_SYSTEM.md` states 8, the spec records the
inconsistency as an open question and the invariant below holds for either. -/
def rfidLength : Nat := 6

/-- The building codes enumerated in `system_prompt.txt`, in their order
there (the list repeats A3 and A4). -/
def buildingCodes : List String :=
  ["A1A", "A1B", "A1C", "A2A", "A2B", "A2C", "A3", "A4", "A5A", "A5B", "A5C",
    "A6A", "A6B", "A6C", "A1", "A2", "A3", "A4", "A5", "A6", "F1", "F2", "C1", "C2", "C3"]

/-- Configured phone digit range (spec section 4.3: 9-15). -/
def phoneMinDigits : Nat := 9

def phoneMaxDigits : Nat := 15

/-- Modelled from the spec, section 4.3: identifier validation is digits
only, of the configured length. -/
def validateRFID (v : String) : Bool :=
  v.data.length == rfidLength && v.data.all Char.isDigit

/-- Modelled from the spec, section 4.3: building validation is membership in
the configured code list. -/
def validateBuilding (v : String) : Bool :=
  buildingCodes.contains v

/-- Modelled from the spec, section 4.3: phone validation counts digits after
stripping non-digit country-code characters and checks the configured range. -/
def validatePhone (v : String) : Bool :=
  phoneMinDigits ≤ (v.data.filter Char.isDigit).length &&
    (v.data.filter Char.isDigit).length ≤ phoneMaxDigits

/-- Lower-casing for the special-request negatives. -/
def strLower (s : String) : String :=
  ⟨s.data.map Char.toLower⟩

/-- Modelled from the spec, section 4.3: the special request is always valid
and case-insensitive negatives canonicalize to "None". -/
def canonicalSpecial (v : String) : String :=
  if strLower v = "no" || strLower v = "none" || strLower v = "nope" || v = "" then "None"
  else v

/-- One classified turn for the controller: an item inquiry (with the
gateway's lookup verdict), an affirmative confirmation, a field value,
an explicit cancellation, or an unrelated message (spec section 4.2 step 1). -/
inductive TurnEvent
  | inquiry (item : String) (found : Bool)
  | confirmYes
  | fieldValue (v : String)
  | cancel
  | unrelated
deriving Repr, DecidableEq

/-- Modelled from the spec: the per-session controller state, a stage and the
order draft. -/
structure Session where
  stage : Stage
  draft : OrderDraft
deriving Repr, DecidableEq

/-- A fresh session starts idle with an empty draft. -/
def initialSession : Session := ⟨Stage.idle, emptyDraft⟩

/-- The collecting state of the first required field not yet validated, or
`order_complete` when none remain (spec section 4.2 steps 3-4). -/
def firstIncompleteStage (d : OrderDraft) : Stage :=
  if !d.rfid.validated then Stage.collecting_rfid
  else if !d.building.validated then Stage.collecting_building
  else if !d.phone.validated then Stage.collecting_phone
  else if !d.special.validated then Stage.collecting_special
  else Stage.order_complete

/-- Modelled from the spec, section 4.2: the per-turn transition, given the
current stage and draft. Cancellation from a pending or collecting state
discards the draft; a confirmed order moves to the first incomplete field; a
field value in a collecting state is validated and, on success, advances to
the next incomplete field or to `order_complete`; on failure the stage is
kept for a re-prompt. -/
def stepCore : Stage → OrderDraft → TurnEvent → Session
  | st, d, .cancel =>
      match st with
      | .order_pending_confirmation | .collecting_rfid | .collecting_building
      | .collecting_phone | .collecting_special => ⟨Stage.idle, emptyDraft⟩
      | _ => ⟨st, d⟩
  | st, d, .inquiry item found =>
      match st with
      | .idle | .item_inquiry =>
          if found then ⟨Stage.order_pending_confirmation, { emptyDraft with items := [item] }⟩
          else ⟨Stage.item_inquiry, d⟩
      | _ => ⟨st, d⟩
  | st, d, .confirmYes =>
      match st with
      | .order_pending_confirmation => ⟨firstIncompleteStage d, d⟩
      | _ => ⟨st, d⟩
  | st, d, .fieldValue v =>
      match st with
      | .collecting_rfid =>
          if validateRFID v then
            let d2 := { d with rfid := ⟨v, true⟩ }
            ⟨firstIncompleteStage d2, d2⟩
          else ⟨st, d⟩
      | .collecting_building =>
          if validateBuilding v then
            let d2 := { d with building := ⟨v, true⟩ }
            ⟨firstIncompleteStage d2, d2⟩
          else ⟨st, d⟩
      | .collecting_phone =>
          if validatePhone v then
            let d2 := { d with phone := ⟨v, true⟩ }
            ⟨firstIncompleteStage d2, d2⟩
          else ⟨st, d⟩
      | .collecting_special =>
          let d2 := { d with special := ⟨canonicalSpecial v, true⟩ }
          ⟨firstIncompleteStage d2, d2⟩
      | _ => ⟨st, d⟩
  | st, d, .unrelated => ⟨st, d⟩

/-- The controller turn: a completed order was persisted and cleared at the
end of its turn (spec section 4.2 step 6), so a session found in
`order_complete` re-enters from idle before the event is handled. -/
def controllerStep (s : Session) (e : TurnEvent) : Session :=
  if s.stage = Stage.order_complete then stepCore Stage.idle emptyDraft e
  else stepCore s.stage s.draft e

/-- The sessions the controller can actually produce, from a fresh session. -/
inductive Reachable : Session → Prop
  | init : Reachable initialSession
  | step : ∀ s e, Reachable s → Reachable (controllerStep s e)

theorem firstIncompleteStage_complete (d : OrderDraft)
    (h : firstIncompleteStage d = Stage.order_complete) : allValidated d = true := by
  unfold firstIncompleteStage at h
  by_cases h1 : d.rfid.validated <;> by_cases h2 : d.building.validated <;>
    by_cases h3 : d.phone.validated <;> by_cases h4 : d.special.validated <;>
    simp [h1, h2, h3, h4, allValidated] at h ⊢

theorem stepCore_complete_validated (st : Stage) (d : OrderDraft) (e : TurnEvent)
    (hs : ¬ st = Stage.order_complete)
    (h : (stepCore st d e).stage = Stage.order_complete) :
    allValidated (stepCore st d e).draft = true := by
  cases e with
  | inquiry item found =>
    cases st <;> simp only [stepCore] at h ⊢ <;>
      first
        | exact absurd rfl hs
        | simp at h
        | (by_cases hf : found <;> simp [hf] at h)
  | confirmYes =>
    cases st <;> simp only [stepCore] at h ⊢ <;>
      first
        | exact absurd rfl hs
        | simp at h
        | exact firstIncompleteStage_complete d h
  | fieldValue v =>
    cases st <;> simp only [stepCore] at h ⊢
    case idle => simp at h
    case item_inquiry => simp at h
    case order_pending_confirmation => simp at h
    case collecting_rfid =>
      by_cases hv : validateRFID v <;> simp [hv] at h ⊢
      exact firstIncompleteStage_complete _ h
    case collecting_building =>
      by_cases hv : validateBuilding v <;> simp [hv] at h ⊢
      exact firstIncompleteStage_complete _ h
    case collecting_phone =>
      by_cases hv : validatePhone v <;> simp [hv] at h ⊢
      exact firstIncompleteStage_complete _ h
    case collecting_special =>
      exact firstIncompleteStage_complete _ h
    case order_complete => exact absurd rfl hs
  | cancel =>
    cases st <;> simp only [stepCore] at h ⊢ <;>
      first
        | exact absurd rfl hs
        | simp at h
  | unrelated =>
    cases st <;> simp only [stepCore] at h ⊢ <;>
      first
        | exact absurd rfl hs
        | simp at h

/-- C1: in every reachable session, `order_complete` holds only when all four
required fields of the draft are validated; no order completes with a missing
or invalid field. -/
theorem order_complete_requires_validation (s : Session) (h : Reachable s)
    (hc : s.stage = Stage.order_complete) : allValidated s.draft = true := by
  induction h with
  | init => exact absurd hc (by simp [initialSession])
  | step s0 e hr ih =>
    unfold controllerStep at hc ⊢
    by_cases hs : s0.stage = Stage.order_complete
    · rw [if_pos hs] at hc ⊢
      exact stepCore_complete_validated Stage.idle emptyDraft e (by simp) hc
    · rw [if_neg hs] at hc ⊢
      exact stepCore_complete_validated s0.stage s0.draft e hs hc

/-- Witness for `order_complete_requires_validation`: a concrete run through
the whole order flow reaches `order_complete` and the theorem yields the
validation of every field. -/
theorem order_complete_requires_validation_witness :
    allValidated (controllerStep (controllerStep (controllerStep (controllerStep
      (controllerStep (controllerStep initialSession (TurnEvent.inquiry "Margherita" true))
        TurnEvent.confirmYes) (TurnEvent.fieldValue "123456")) (TurnEvent.fieldValue "A1A"))
      (TurnEvent.fieldValue "0501234567")) (TurnEvent.fieldValue "none")).draft = true :=
  order_complete_requires_validation _
    (Reachable.step _ _ (Reachable.step _ _ (Reachable.step _ _ (Reachable.step _ _
      (Reachable.step _ _ (Reachable.step _ _ Reachable.init)))))) (by decide)

/-! ## Tool Gateway and the anti-hallucination gate, modelled from the spec -/

/-- Modelled from the spec, section 3: the transient Tool Gateway result,
a found flag with the item payload (its unit price) when found. -/
structure ToolResult where
  found : Bool
  price : Option Nat
deriving Repr, DecidableEq

/-- Modelled from the spec, section 4.4: catalog lookup by name; a miss
returns `found = false` rather than failing, and never fabricates a result. -/
def lookup_item (catalog : List (String × Nat)) (name : String) : ToolResult :=
  match catalog.find? (fun p => p.1 == name) with
  | some p => ⟨true, some p.2⟩
  | none => ⟨false, none⟩

/-- What a turn's response can say about one referenced item: assert its
availability and price, or state that it is unavailable. -/
inductive Clause
  | assertsAvailable (item : String) (price : Nat)
  | statesUnavailable (item : String)
deriving Repr, DecidableEq

/-- The clause the controller builds for one item from its lookup result. -/
def clauseFor (it : String) (r : ToolResult) : Clause :=
  match r with
  | ⟨true, some p⟩ => Clause.assertsAvailable it p
  | _ => Clause.statesUnavailable it

/-- Modelled from the spec, section 4.2 steps 2 and 5: every referenced item
is resolved through the gateway before the response is built; the calls of
one turn, in order. -/
def gatewayCalls (catalog : List (String × Nat)) (items : List String) :
    List (String × ToolResult) :=
  items.map (fun it => (it, lookup_item catalog it))

/-- Modelled from the spec, section 4.2 step 2: the turn's response about the
referenced items, built only from the gateway results that precede it. -/
def turnResponse (catalog : List (String × Nat)) (items : List String) : List Clause :=
  items.map (fun it => clauseFor it (lookup_item catalog it))

theorem clauseFor_asserts (it0 it : String) (r : ToolResult) (p : Nat)
    (h : clauseFor it0 r = Clause.assertsAvailable it p) :
    it0 = it ∧ r = ⟨true, some p⟩ := by
  match r with
  | ⟨true, some q⟩ =>
    simp only [clauseFor] at h
    cases h
    exact ⟨rfl, rfl⟩
  | ⟨true, none⟩ => simp [clauseFor] at h
  | ⟨false, q⟩ => simp [clauseFor] at h

theorem asserts_implies_lookup (catalog : List (String × Nat)) (items : List String)
    (it : String) (p : Nat) (h : Clause.assertsAvailable it p ∈ turnResponse catalog items) :
    (it, (⟨true, some p⟩ : ToolResult)) ∈ gatewayCalls catalog items ∧
      lookup_item catalog it = ⟨true, some p⟩ := by
  rw [turnResponse, List.mem_map] at h
  obtain ⟨it0, hmem, heq⟩ := h
  obtain ⟨rfl, hr⟩ := clauseFor_asserts it0 it _ p heq
  refine ⟨?_, hr⟩
  rw [gatewayCalls, List.mem_map]
  exact ⟨it0, hmem, by rw [hr]⟩

/-- C2: a response clause asserting an item's price or availability can only
come from a preceding gateway call for that exact item returning
`found = true` with that price; and every item whose call returned
`found = false` gets an unavailability clause in the response and no
availability assertion at all. -/
theorem lookup_gates_availability (catalog : List (String × Nat)) (items : List String) :
    (∀ it p, Clause.assertsAvailable it p ∈ turnResponse catalog items →
      (it, (⟨true, some p⟩ : ToolResult)) ∈ gatewayCalls catalog items ∧
        lookup_item catalog it = ⟨true, some p⟩) ∧
      (∀ it r, (it, r) ∈ gatewayCalls catalog items → r.found = false →
        Clause.statesUnavailable it ∈ turnResponse catalog items ∧
          ∀ p, Clause.assertsAvailable it p ∉ turnResponse catalog items) := by
  constructor
  · exact fun it p h => asserts_implies_lookup catalog items it p h
  · intro it r h hf
    rw [gatewayCalls, List.mem_map] at h
    obtain ⟨it0, hmem, heq⟩ := h
    have hit : it0 = it := congrArg Prod.fst heq
    have hlk : lookup_item catalog it = r := by
      rw [← hit]; exact congrArg Prod.snd heq
    constructor
    · rw [turnResponse, List.mem_map]
      refine ⟨it0, hmem, ?_⟩
      rw [hit, hlk]
      match r, hf with
      | ⟨false, q⟩, _ => rfl
    · intro p hp
      obtain ⟨_, hfound⟩ := asserts_implies_lookup catalog items it p hp
      rw [hlk] at hfound
      rw [hfound] at hf
      simp at hf

/-- Witness for `lookup_gates_availability` on a concrete catalog: the
asserted Margherita price comes from its found lookup, and the missing item
gets an unavailability clause. -/
theorem lookup_gates_availability_witness :
    (("Margherita", (⟨true, some 31⟩ : ToolResult))
        ∈ gatewayCalls [("Margherita", 31), ("Pepperoni", 43)] ["Margherita", "Acai Bowl"]) ∧
      Clause.statesUnavailable "Acai Bowl"
        ∈ turnResponse [("Margherita", 31), ("Pepperoni", 43)] ["Margherita", "Acai Bowl"] :=
  ⟨((lookup_gates_availability [("Margherita", 31), ("Pepperoni", 43)]
      ["Margherita", "Acai Bowl"]).1 "Margherita" 31 (by decide)).1,
    ((lookup_gates_availability [("Margherita", 31), ("Pepperoni", 43)]
      ["Margherita", "Acai Bowl"]).2 "Acai Bowl" ⟨false, none⟩ (by decide) rfl).1⟩
